import Mathlib

/-!
Verification of the training-load analytics pipeline of the
`strava-improvement` dashboard (files `app.py`, `pages/Analisi.py`).

The Python source operates on pandas DataFrames of activity records.  We
embed the pipeline shallowly:

* a DataFrame column of floats becomes a `List ℚ` (the float values the
  source manipulates are modelled exactly as rationals);
* a float that can be NaN (pandas' null) becomes an `Option ℚ`, with
  `none` playing the role of NaN; IEEE comparisons against NaN are
  `False`, which is reflected explicitly wherever a comparison is made on
  an optional value;
* a Python function that can raise an exception on some input becomes a
  function into `Option _`, with `none` marking the raising input;
* activity records become the structure `Activity`; only the fields the
  analytics pipeline reads are carried.
-/

/-- One normalized activity record (the fields of the fetched DataFrame
that the analytics pipeline reads): local date (as a day count since
1970-01-01), sport category (`sport` column, e.g. `"Run"`), finer
sub-type (`type` column), distance (km), moving time (min), and average
speed (km/h); `none` models a missing (NaN) speed. -/
structure Activity where
  date : ℤ
  sport : String
  type : String
  distance : ℚ
  moving_time : ℚ
  average_speed : Option ℚ
deriving DecidableEq, Repr

/-- From `speed_to_pace` (Analisi.py lines 413-418, app.py 330-335):
`if pd.isna(speed_kmh) or speed_kmh == 0: return None` then
`return 60 / speed_kmh`.  A negative speed is not caught by the guard and
produces a (negative) pace. -/
def speed_to_pace (speed_kmh : Option ℚ) : Option ℚ :=
  match speed_kmh with
  | none => none
  | some s => if s = 0 then none else some (60 / s)

/-- From `label_intensity` (Analisi.py lines 341-347, app.py 253-259):
`if index <= 0.95: "Alta" elif index <= 1.15: "Moderada" else: "Baixa"`.
("Alta" = High, "Moderada" = Moderate, "Baixa" = Low.) -/
def label_intensity (index : ℚ) : String :=
  if index ≤ 0.95 then "Alta"
  else if index ≤ 1.15 then "Moderada"
  else "Baixa"

/-- `label_intensity` as applied by pandas to a float column that may hold
NaN (`none`).  In IEEE arithmetic `NaN <= 0.95` and `NaN <= 1.15` are both
false, so the Python function falls through to the final `else` branch and
returns `"Baixa"` on NaN. -/
def label_intensity_nan : Option ℚ → String
  | some v => label_intensity v
  | none => "Baixa"

/-- The fixed correction table `distance_factors` of `add_intensity_index`
(Analisi.py lines 388-395, app.py 300-307), in its source order. -/
def distance_factors : List (ℚ × ℚ) :=
  [(5, 1.05), (10, 1.03), (15, 1), (21.1, 0.98), (42.2, 0.95)]

/-- The keys of `distance_factors`. -/
def table_keys : List ℚ := distance_factors.map Prod.fst

/-- Python's `min(iterable, key=...)` keeps the first element whose key is
strictly smaller than the current best; here the key of `d` is
`abs(d - x)`, as in `min(distance_factors.keys(), key=lambda d: abs(d - race_distance))`. -/
def pyMinAbsFold (x : ℚ) (a : ℚ) (l : List ℚ) : ℚ :=
  l.foldl (fun acc d => if |d - x| < |acc - x| then d else acc) a

/-- `closest_dist` of `add_intensity_index` (Analisi.py line 398,
app.py line 310): the table key closest to `race_distance`, first (hence
smallest, the keys being listed in ascending order) on ties. -/
def closest_dist (race_distance : ℚ) : ℚ :=
  pyMinAbsFold race_distance (table_keys.headD 0) table_keys.tail

/-- Dictionary lookup `distance_factors[closest_dist]`. -/
def factor_of (d : ℚ) : ℚ :=
  ((distance_factors.find? (fun p => p.1 == d)).map Prod.snd).getD 0

/-- `adjusted_reference_pace = reference_pace * factor` (Analisi.py line
402, app.py line 314). -/
def adjusted_reference_pace (reference_pace race_distance : ℚ) : ℚ :=
  reference_pace * factor_of (closest_dist race_distance)

/-- One row of the DataFrame returned by `add_intensity_index`: the
activity together with its `average_pace`, `intensity_index` and
`intensity_zone_pace` columns.  `none` models NaN. -/
structure IntensityRecord where
  act : Activity
  average_pace : Option ℚ
  intensity_index : Option ℚ
  zone : String
deriving DecidableEq, Repr

/-- Body of `add_intensity_index` (Analisi.py lines 371-411): per row,
`intensity_index = average_pace / adjusted_reference_pace` (NaN pace gives
NaN index) and `intensity_zone_pace = label_intensity(intensity_index)`.
The input rows carry the `average_pace` column added by the caller. -/
def add_intensity_index (rows : List (Activity × Option ℚ))
    (reference_pace race_distance : ℚ) : List IntensityRecord :=
  let arp := adjusted_reference_pace reference_pace race_distance
  rows.map (fun r =>
    let idx := r.2.map (fun p => p / arp)
    ⟨r.1, r.2, idx, label_intensity_nan idx⟩)

/-- The intensity step of `main` (Analisi.py lines 1537-1539):
`df_filtered['average_pace'] = df_filtered['average_speed'].apply(speed_to_pace)`
followed by
`add_intensity_index(df_filtered[df_filtered['sport'].isin(['Run', 'Hike'])], race_pace, race_distance)`.
Note that no row is dropped for a missing/zero/negative speed: every
`Run`/`Hike` row of the filtered frame appears in the output. -/
def intensity_pipeline (acts : List Activity)
    (race_pace race_distance : ℚ) : List IntensityRecord :=
  let with_pace := acts.map (fun a => (a, speed_to_pace a.average_speed))
  add_intensity_index
    (with_pace.filter (fun r => r.1.sport == "Run" || r.1.sport == "Hike"))
    race_pace race_distance

/-- Python's `round` (banker's rounding, ties to even) on a rational. -/
def round_half_even (q : ℚ) : ℤ :=
  let n := ⌊q⌋
  let r := q - n
  if r < 1/2 then n
  else if 1/2 < r then n + 1
  else if n % 2 = 0 then n else n + 1

/-- Python's `round(q, 1)`. -/
def round1 (q : ℚ) : ℚ := (round_half_even (10 * q) : ℚ) / 10

/-- From `compute_easy_percentage` (Analisi.py lines 361-369, app.py
273-281): `0.0` when the frame is empty, else
`round(100 * easy_sessions / total_sessions, 1)` where `easy_sessions`
counts rows with `intensity_zone_pace == "Baixa"`. -/
def compute_easy_percentage (df : List IntensityRecord) : ℚ :=
  if df.length = 0 then 0
  else round1 (100 * ((df.filter (fun r => r.zone == "Baixa")).length : ℚ)
    / (df.length : ℚ))

/-- Result record of `analyze_intensity_distribution`. -/
structure IntensityAnalysis where
  easy_percentage : ℚ
  deviation : ℚ
deriving DecidableEq, Repr

/-- From `analyze_intensity_distribution` (Analisi.py lines 519-533):
`easy_percentage = (easy_sessions / total_sessions) * 100` with **no**
guard on `total_sessions`; on an empty frame the Python `0 / 0` of two
ints raises `ZeroDivisionError`, modelled here by `none`.
`deviation = abs(easy_percentage - 80)`. -/
def analyze_intensity_distribution (df : List IntensityRecord) :
    Option IntensityAnalysis :=
  let total := df.length
  if total = 0 then none
  else
    let easy := (df.filter (fun r => r.zone == "Baixa")).length
    let ep := ((easy : ℚ) / (total : ℚ)) * 100
    some ⟨ep, |ep - 80|⟩

/-!
## Calendar: the `isocalendar()` grouping key

`main` groups by `datetime_local.dt.isocalendar().year` and `...().week`.
We model a local date as a day count since 1970-01-01 and implement the
ISO 8601 week rule (weeks start Monday; a date belongs to the ISO year
and week of the Thursday of its week).  The civil-calendar conversions
follow the standard era-based Gregorian algorithms.  The analytics
theorems use this function only as an opaque grouping key.
-/

/-- Days since 1970-01-01 of the civil date `(y, m, d)`. -/
def days_from_civil (y m d : ℤ) : ℤ :=
  let y2 := if m ≤ 2 then y - 1 else y
  let era := (if 0 ≤ y2 then y2 else y2 - 399) / 400
  let yoe := y2 - era * 400
  let mp := (m + 9) % 12
  let doy := (153 * mp + 2) / 5 + d - 1
  let doe := yoe * 365 + yoe / 4 - yoe / 100 + doy
  era * 146097 + doe - 719468

/-- Civil `(year, month, day)` of a day count since 1970-01-01. -/
def civil_from_days (z0 : ℤ) : ℤ × ℤ × ℤ :=
  let z := z0 + 719468
  let era := (if 0 ≤ z then z else z - 146096) / 146097
  let doe := z - era * 146097
  let yoe := (doe - doe / 1460 + doe / 36524 - doe / 146096) / 365
  let y := yoe + era * 400
  let doy := doe - (365 * yoe + yoe / 4 - yoe / 100)
  let mp := (5 * doy + 2) / 153
  let d := doy - (153 * mp + 2) / 5 + 1
  let m := if mp < 10 then mp + 3 else mp - 9
  (if m ≤ 2 then y + 1 else y, m, d)

/-- Weekday of a day count, Monday = 0 … Sunday = 6 (1970-01-01 was a
Thursday). -/
def weekday (z : ℤ) : ℤ := (z + 3) % 7

/-- The ISO `(year, week)` key of a day count: the ISO year is the civil
year of the Thursday of the date's Monday-based week, and the week number
counts weeks from that year's first ISO week. -/
def iso_year_week (z : ℤ) : ℤ × ℤ :=
  let th := z - weekday z + 3
  let y := (civil_from_days th).1
  let jan1 := days_from_civil y 1 1
  (y, (th - jan1) / 7 + 1)

/-- The grouping key `(isocalendar().year, isocalendar().week)` of an
activity. -/
def week_key (a : Activity) : ℤ × ℤ := iso_year_week a.date

/-- Lexicographic order on `(year, week)` keys; pandas `groupby` sorts the
group keys ascending. -/
def weekLE (p q : ℤ × ℤ) : Prop := p.1 < q.1 ∨ (p.1 = q.1 ∧ p.2 ≤ q.2)

instance : DecidableRel weekLE := fun p q => by
  unfold weekLE; exact inferInstance

/-- The distinct week keys of a collection, ascending (the index of the
frame produced by `groupby([...year, ...week])`). -/
def sorted_week_keys (acts : List Activity) : List (ℤ × ℤ) :=
  ((acts.map week_key).dedup).insertionSort weekLE

/-- One row of the `weekly_distance` frame (Analisi.py lines 910-917,
app.py lines 682-689): `Year`, `Week`, `Distance = sum(distance)`,
`Time = sum(moving_time)` over the activities of that ISO week. -/
structure WeeklyRow where
  year_week : ℤ × ℤ
  distance : ℚ
  time : ℚ
deriving DecidableEq, Repr

/-- The `weekly_distance` frame: one row per week key present in the
filtered collection, keys ascending, with per-week sums. -/
def weekly_distance (acts : List Activity) : List WeeklyRow :=
  (sorted_week_keys acts).map (fun k =>
    { year_week := k
      distance := ((acts.filter (fun a => week_key a == k)).map
        (fun a => a.distance)).sum
      time := ((acts.filter (fun a => week_key a == k)).map
        (fun a => a.moving_time)).sum })

/-- The `weekly_sessions` frame (Analisi.py / app.py lines 995-999):
`groupby([...year, ...week]).size()` — one `(key, session count)` row per
week present. -/
def weekly_sessions (acts : List Activity) : List ((ℤ × ℤ) × ℕ) :=
  (sorted_week_keys acts).map (fun k =>
    (k, (acts.filter (fun a => week_key a == k)).length))

/-!
## pct_change and the volume progression analyzer
-/

/-- Helper for `pandas_pct_change`: the entries after the first. -/
def pct_go : ℚ → List ℚ → List (Option ℚ)
  | _, [] => []
  | prev, y :: ys => some ((y - prev) / prev) :: pct_go y ys

/-- pandas `Series.pct_change()`: the first entry is NaN (`none`), entry
`i > 0` is `(s[i] - s[i-1]) / s[i-1]`. -/
def pandas_pct_change : List ℚ → List (Option ℚ)
  | [] => []
  | x :: xs => none :: pct_go x xs

/-- `pct_change() * 100` as computed for `Distance_pct` (Analisi.py line
923, app.py line 695) and in `analyze_volume_progression` (line 479). -/
def pct_change100 (l : List ℚ) : List (Option ℚ) :=
  (pandas_pct_change l).map (Option.map (fun v => v * 100))

/-- `(abs(pct_changes) >= 6) & (abs(pct_changes) <= 15)` on one entry;
both comparisons are false on NaN. -/
def isIdealChange (o : Option ℚ) : Bool :=
  match o with
  | some v => decide (6 ≤ |v|) && decide (|v| ≤ 15)
  | none => false

/-- `abs(pct_changes) > 15` on one entry; false on NaN. -/
def isTooLargeChange (o : Option ℚ) : Bool :=
  match o with
  | some v => decide (15 < |v|)
  | none => false

/-- `pct_changes < -20` on one entry; false on NaN. -/
def isRecoveryWeek (o : Option ℚ) : Bool :=
  match o with
  | some v => decide (v < -20)
  | none => false

/-- Result record of `analyze_volume_progression`. -/
structure VolumeAnalysis where
  pct_ideal_changes : Option ℚ
  pct_too_large : Option ℚ
  recovery_freq : ℚ
  has_recovery : Bool
deriving DecidableEq, Repr

/-- From `analyze_volume_progression` (Analisi.py lines 472-498), taking
the `Distance` column of `weekly_distance`:
`pct_changes = weekly_distance['Distance'].pct_change() * 100`, then
`pct_ideal_changes = (ideal_changes.sum() / len(pct_changes)) * 100` and
`pct_too_large = (too_large_changes.sum() / len(pct_changes)) * 100` —
both divide by the number of **rows** (`len(pct_changes)`, which equals
the number of weeks; on an empty frame numpy's `0 / 0` yields NaN,
modelled `none`) — and
`recovery_freq = len(weekly_distance) / (recovery_weeks.sum() if recovery_weeks.sum() > 0 else 1)`,
`has_recovery = recovery_weeks.sum() > 0`. -/
def analyze_volume_progression (ds : List ℚ) : VolumeAnalysis :=
  let pct := pct_change100 ds
  let idealCount := pct.countP isIdealChange
  let tooLargeCount := pct.countP isTooLargeChange
  let recoveryCount := pct.countP isRecoveryWeek
  { pct_ideal_changes :=
      if pct.length = 0 then none
      else some ((idealCount : ℚ) / (pct.length : ℚ) * 100)
    pct_too_large :=
      if pct.length = 0 then none
      else some ((tooLargeCount : ℚ) / (pct.length : ℚ) * 100)
    recovery_freq :=
      (ds.length : ℚ) / (if 0 < recoveryCount then (recoveryCount : ℚ) else 1)
    has_recovery := 0 < recoveryCount }

/-!
## Frequency consistency analyzer
-/

/-- The largest multiplicity of any value of the list. -/
def maxCount (l : List ℕ) : ℕ :=
  (l.map (fun v => l.count v)).foldr max 0

/-- The head of a nonempty list folded with `min`. -/
def listMinD : List ℕ → ℕ → ℕ
  | [], a => a
  | x :: xs, a => listMinD xs (min a x)

/-- pandas `Series.mode()[0]`: `mode()` returns the most frequent values
sorted ascending, and `[0]` selects the first, i.e. the smallest value of
maximal multiplicity.  On an empty series `mode()` is empty and the `[0]`
indexing raises `KeyError`, modelled by `none`. -/
def pandas_mode (l : List ℕ) : Option ℕ :=
  match l.filter (fun v => l.count v == maxCount l) with
  | [] => none
  | x :: xs => some (listMinD xs x)

/-- Mean of a list of session counts, as a rational. -/
def sessions_mean (l : List ℕ) : ℚ := ((l.map (fun v => (v : ℚ))).sum) / l.length

/-- Sample variance (pandas `std` uses `ddof=1`). -/
def sample_var (l : List ℕ) : ℚ :=
  ((l.map (fun v => ((v : ℚ) - sessions_mean l) ^ 2)).sum) / ((l.length : ℚ) - 1)

/-- Definedness-faithful model of
`cv = weekly_sessions['Sessions'].std() / weekly_sessions['Sessions'].mean() * 100`
(Analisi.py line 505).  The sample standard deviation is irrational in
general, so the carried value is the square `cv² = var / mean² * 100²`;
what the theorems use is only definedness: the source's float is NaN
exactly when fewer than two data points exist (sample `std` of < 2 points
is NaN) or when the mean is 0 (then `std = 0` and `0 / 0` is NaN), and
these are exactly the `none` cases here. -/
def cv_sq (l : List ℕ) : Option ℚ :=
  if l.length < 2 then none
  else if sessions_mean l = 0 then none
  else some (sample_var l / (sessions_mean l) ^ 2 * 10000)

/-- Result record of `analyze_frequency_consistency`. -/
structure FreqAnalysis where
  cv : Option ℚ
  mode_sessions : ℕ
  pct_consistent : ℚ
deriving DecidableEq, Repr

/-- From `analyze_frequency_consistency` (Analisi.py lines 500-517),
taking the `Sessions` column of `weekly_sessions`:
`cv = std / mean * 100` (see `cv_sq`),
`mode_sessions = weekly_sessions['Sessions'].mode()[0]` — which raises
`KeyError` on an empty frame, making the whole call raise, modelled by a
`none` result — and
`pct_consistent = (weekly_sessions['Sessions'] == mode_sessions).mean() * 100`. -/
def analyze_frequency_consistency (l : List ℕ) : Option FreqAnalysis :=
  match pandas_mode l with
  | none => none
  | some m =>
    some { cv := cv_sq l
           mode_sessions := m
           pct_consistent := ((l.countP (fun v => v == m)) : ℚ) / (l.length : ℚ) * 100 }

/-!
## Time-Window Filter
-/

/-- The filter of `main` (Analisi.py lines 874-887): keep activities whose
local date lies in the inclusive range `[s, e]`; when the selected type
list is empty all types pass, otherwise the activity's `type` must be a
member (`isin`).  (The `app.py` variant, lines 653-670, additionally pins
`sport == 'Run'`; the claims cite the date/type behavior common to both.) -/
def time_filter (acts : List Activity) (s e : ℤ) (types : List String) :
    List Activity :=
  if types.isEmpty then
    acts.filter (fun a => decide (s ≤ a.date) && decide (a.date ≤ e))
  else
    acts.filter (fun a =>
      decide (s ≤ a.date) && decide (a.date ≤ e) && types.contains a.type)

/-- A concrete three-record intensity frame (one `"Baixa"` row out of
three) used to exercise the easy-percentage computations. -/
def sample_intensity3 : List IntensityRecord :=
  [⟨⟨0, "Run", "Run", 10, 60, some 12⟩, some 5, some 1.2, "Baixa"⟩,
   ⟨⟨1, "Run", "Run", 10, 60, some 12⟩, some 5, some 0.9, "Alta"⟩,
   ⟨⟨2, "Run", "Run", 10, 60, some 12⟩, some 5, some 0.9, "Alta"⟩]

/-- A concrete one-record intensity frame. -/
def sample_intensity1 : List IntensityRecord :=
  [⟨⟨0, "Run", "Run", 10, 60, some 12⟩, some 5, some 1.2, "Baixa"⟩]

/-!
## Helper lemmas
-/

/-- Python's first-minimum fold returns an element of the candidate list,
and on a list whose elements are listed in ascending order it returns the
element minimizing `|k - x|`, the smallest such element on ties. -/
theorem pyMinAbsFold_spec (x : ℚ) :
    ∀ (l : List ℚ) (a : ℚ), List.Sorted (· ≤ ·) (a :: l) →
      pyMinAbsFold x a l ∈ a :: l ∧
      ∀ k ∈ a :: l, |pyMinAbsFold x a l - x| < |k - x| ∨
        (|pyMinAbsFold x a l - x| = |k - x| ∧ pyMinAbsFold x a l ≤ k) := by
  intro l
  induction l with
  | nil =>
    intro a _
    refine ⟨List.mem_singleton_self a, ?_⟩
    intro k hk
    rw [List.mem_singleton] at hk
    subst hk
    exact Or.inr ⟨rfl, le_refl _⟩
  | cons d t ih =>
    intro a hsort
    have had : a ≤ d := (List.sorted_cons.mp hsort).1 d (List.mem_cons_self d t)
    have hstep : pyMinAbsFold x a (d :: t)
        = pyMinAbsFold x (if |d - x| < |a - x| then d else a) t := rfl
    by_cases h : |d - x| < |a - x|
    · -- the new candidate d strictly improves on a
      have hsort2 : List.Sorted (· ≤ ·) (d :: t) := (List.sorted_cons.mp hsort).2
      obtain ⟨hmem, hprop⟩ := ih d hsort2
      rw [hstep, if_pos h]
      refine ⟨List.mem_cons_of_mem a hmem, ?_⟩
      intro k hk
      rcases List.mem_cons.mp hk with hk | hk
      · subst hk
        left
        have hd : |pyMinAbsFold x d t - x| ≤ |d - x| := by
          rcases hprop d (List.mem_cons_self d t) with h1 | h1
          · exact le_of_lt h1
          · exact le_of_eq h1.1
        exact lt_of_le_of_lt hd h
      · exact hprop k hk
    · -- a stays the candidate
      have hax : |a - x| ≤ |d - x| := le_of_not_lt h
      have hsort2 : List.Sorted (· ≤ ·) (a :: t) := by
        rw [List.sorted_cons] at hsort ⊢
        exact ⟨fun b hb => hsort.1 b (List.mem_cons_of_mem d hb),
          (List.sorted_cons.mp hsort.2).2⟩
      obtain ⟨hmem, hprop⟩ := ih a hsort2
      rw [hstep, if_neg h]
      constructor
      · rcases List.mem_cons.mp hmem with h1 | h1
        · rw [h1]
          exact List.mem_cons_self a (d :: t)
        · exact List.mem_cons_of_mem a (List.mem_cons_of_mem d h1)
      · intro k hk
        rcases List.mem_cons.mp hk with rfl | hk
        · exact hprop k (List.mem_cons_self k t)
        · rcases List.mem_cons.mp hk with rfl | hk
          · -- k = d, the dropped candidate
            rcases hprop a (List.mem_cons_self a t) with h1 | h1
            · exact Or.inl (lt_of_lt_of_le h1 hax)
            · rcases lt_or_eq_of_le (h1.1.le.trans hax) with h2 | h2
              · exact Or.inl h2
              · exact Or.inr ⟨h2, h1.2.trans had⟩
          · exact hprop k (List.mem_cons_of_mem a hk)

theorem sum_map_if_single {κ M : Type _} [BEq κ] [LawfulBEq κ] [AddCommMonoid M]
    (S : κ → M) (c : M) :
    ∀ (ks : List κ) (x : κ), ks.Nodup → x ∈ ks →
      (ks.map (fun k => if x == k then c + S k else S k)).sum
        = c + (ks.map S).sum := by
  intro ks
  induction ks with
  | nil => intro x _ hx; exact absurd hx (List.not_mem_nil x)
  | cons k ks ih =>
    intro x hnd hx
    rcases List.mem_cons.mp hx with rfl | hx
    · have hnot : ∀ j ∈ ks, (x == j) = false := by
        intro j hj
        exact beq_eq_false_iff_ne.mpr (fun he => (List.nodup_cons.mp hnd).1 (he ▸ hj))
      have htail : ks.map (fun k => if x == k then c + S k else S k) = ks.map S := by
        apply List.map_congr_left
        intro j hj
        rw [hnot j hj]
        simp
      simp only [List.map_cons, List.sum_cons, htail, beq_self_eq_true, if_pos]
      rw [add_assoc]
    · have hxk : (x == k) = false :=
        beq_eq_false_iff_ne.mpr (fun he => (List.nodup_cons.mp hnd).1 (he ▸ hx))
      simp only [List.map_cons, List.sum_cons, hxk, Bool.false_eq_true, if_false]
      rw [ih x (List.nodup_cons.mp hnd).2 hx, add_left_comm]

/-- Grouping by any key conserves a sum: summing `f` over every group,
over all (distinct) keys covering the collection, equals summing `f` over
the whole collection. -/
theorem grouped_sum {α κ M : Type _} [BEq κ] [LawfulBEq κ] [AddCommMonoid M]
    (key : α → κ) (f : α → M) :
    ∀ (acts : List α) (ks : List κ), ks.Nodup → (∀ a ∈ acts, key a ∈ ks) →
      (ks.map (fun k => ((acts.filter (fun a => key a == k)).map f).sum)).sum
        = (acts.map f).sum := by
  intro acts
  induction acts with
  | nil => intro ks _ _; simp
  | cons a acts ih =>
    intro ks hnd hcov
    have hstep : ∀ k : κ,
        ((((a :: acts).filter (fun b => key b == k)).map f).sum)
          = (if key a == k
              then f a + ((acts.filter (fun b => key b == k)).map f).sum
              else ((acts.filter (fun b => key b == k)).map f).sum) := by
      intro k
      rw [List.filter_cons]
      by_cases h : (key a == k) = true
      · rw [if_pos h, if_pos h, List.map_cons, List.sum_cons]
      · rw [if_neg h, if_neg h]
    calc (ks.map (fun k => (((a :: acts).filter (fun b => key b == k)).map f).sum)).sum
        = (ks.map (fun k => if key a == k
            then f a + ((acts.filter (fun b => key b == k)).map f).sum
            else ((acts.filter (fun b => key b == k)).map f).sum)).sum := by
          rw [List.map_congr_left (fun k _ => hstep k)]
      _ = f a + (ks.map (fun k => ((acts.filter (fun b => key b == k)).map f).sum)).sum :=
          sum_map_if_single _ (f a) ks (key a) hnd (hcov a (List.mem_cons_self a acts))
      _ = f a + (acts.map f).sum := by
          rw [ih ks hnd (fun b hb => hcov b (List.mem_cons_of_mem a hb))]
      _ = ((a :: acts).map f).sum := by rw [List.map_cons, List.sum_cons]

theorem sorted_week_keys_nodup (acts : List Activity) :
    (sorted_week_keys acts).Nodup :=
  (List.perm_insertionSort weekLE _).nodup_iff.mpr (List.nodup_dedup _)

theorem week_key_mem_sorted (acts : List Activity) :
    ∀ a ∈ acts, week_key a ∈ sorted_week_keys acts := by
  intro a ha
  exact (List.perm_insertionSort weekLE _).mem_iff.mpr
    (List.mem_dedup.mpr (List.mem_map_of_mem week_key ha))

theorem sum_map_one {α : Type _} (l : List α) :
    (l.map (fun _ => (1 : ℕ))).sum = l.length := by
  induction l with
  | nil => rfl
  | cons a l ih => simp [ih, Nat.add_comm]

/-- Conservation of distance under the weekly aggregation: the per-week
distance totals sum to the total distance of the collection. -/
theorem weekly_distance_conservation (acts : List Activity) :
    ((weekly_distance acts).map (fun w => w.distance)).sum
      = (acts.map (fun a => a.distance)).sum := by
  unfold weekly_distance
  rw [List.map_map]
  refine Eq.trans ?_ (grouped_sum week_key (fun a => a.distance) acts
    (sorted_week_keys acts) (sorted_week_keys_nodup acts) (week_key_mem_sorted acts))
  apply congrArg List.sum
  apply List.map_congr_left
  intro k _
  simp only [Function.comp_apply]

/-- Conservation of session counts under the weekly aggregation. -/
theorem weekly_sessions_conservation (acts : List Activity) :
    ((weekly_sessions acts).map (fun p => p.2)).sum = acts.length := by
  unfold weekly_sessions
  rw [List.map_map]
  refine Eq.trans ?_ (Eq.trans
    (grouped_sum week_key (fun _ => (1 : ℕ)) acts (sorted_week_keys acts)
      (sorted_week_keys_nodup acts) (week_key_mem_sorted acts))
    (sum_map_one acts))
  apply congrArg List.sum
  apply List.map_congr_left
  intro k _
  simp only [Function.comp_apply, sum_map_one]

theorem le_foldr_max : ∀ (xs : List ℕ), ∀ x ∈ xs, x ≤ xs.foldr max 0 := by
  intro xs
  induction xs with
  | nil => intro x hx; exact absurd hx (List.not_mem_nil x)
  | cons y ys ih =>
    intro x hx
    rcases List.mem_cons.mp hx with rfl | hx
    · exact le_max_left _ _
    · exact (ih x hx).trans (le_max_right _ _)

theorem foldr_max_attained :
    ∀ (xs : List ℕ), xs.foldr max 0 ∈ xs ∨ xs.foldr max 0 = 0 := by
  intro xs
  induction xs with
  | nil => exact Or.inr rfl
  | cons y ys ih =>
    rcases le_total (ys.foldr max 0) y with h | h
    · rw [List.foldr_cons, max_eq_left h]
      exact Or.inl (List.mem_cons_self y ys)
    · rw [List.foldr_cons, max_eq_right h]
      rcases ih with h1 | h1
      · exact Or.inl (List.mem_cons_of_mem y h1)
      · rw [h1]
        have : y = 0 := Nat.le_zero.mp (h1 ▸ h)
        rw [← this]
        exact Or.inl (List.mem_cons_self y ys)

theorem count_le_maxCount (l : List ℕ) (v : ℕ) : l.count v ≤ maxCount l := by
  by_cases h : v ∈ l
  · exact le_foldr_max _ _ (List.mem_map_of_mem (fun v => l.count v) h)
  · rw [List.count_eq_zero_of_not_mem h]
    exact Nat.zero_le _

theorem maxCount_attained (l : List ℕ) (h : l ≠ []) :
    ∃ v ∈ l, l.count v = maxCount l := by
  rcases foldr_max_attained (l.map (fun v => l.count v)) with h1 | h1
  · obtain ⟨v, hv, hcount⟩ := List.mem_map.mp h1
    exact ⟨v, hv, hcount⟩
  · obtain ⟨a, t, rfl⟩ := List.exists_cons_of_ne_nil h
    have h2 : (a :: t).count a ≤ maxCount (a :: t) := count_le_maxCount _ _
    have h4 : maxCount (a :: t) = 0 := h1
    have h3 : 0 < (a :: t).count a :=
      List.count_pos_iff.mpr (List.mem_cons_self a t)
    omega

theorem listMinD_le : ∀ (xs : List ℕ) (a : ℕ),
    listMinD xs a ≤ a ∧ ∀ x ∈ xs, listMinD xs a ≤ x := by
  intro xs
  induction xs with
  | nil => intro a; exact ⟨le_refl a, fun x hx => absurd hx (List.not_mem_nil x)⟩
  | cons y ys ih =>
    intro a
    obtain ⟨h1, h2⟩ := ih (min a y)
    refine ⟨h1.trans (min_le_left a y), ?_⟩
    intro x hx
    rcases List.mem_cons.mp hx with rfl | hx
    · exact h1.trans (min_le_right a x)
    · exact h2 x hx

theorem listMinD_mem : ∀ (xs : List ℕ) (a : ℕ),
    listMinD xs a = a ∨ listMinD xs a ∈ xs := by
  intro xs
  induction xs with
  | nil => intro a; exact Or.inl rfl
  | cons y ys ih =>
    intro a
    rcases ih (min a y) with h | h
    · rcases min_choice a y with h1 | h1
      · exact Or.inl (by rw [listMinD, h, h1])
      · refine Or.inr (List.mem_cons.mpr (Or.inl ?_))
        rw [listMinD, h, h1]
    · exact Or.inr (List.mem_cons_of_mem y h)

/-- `pandas_mode` of a nonempty list exists, is a value of the list of
maximal multiplicity, and is the smallest such value. -/
theorem pandas_mode_spec (l : List ℕ) (h : l ≠ []) :
    ∃ m, pandas_mode l = some m ∧ m ∈ l ∧ l.count m = maxCount l ∧
      ∀ v ∈ l, l.count v = maxCount l → m ≤ v := by
  obtain ⟨v0, hv0, hc0⟩ := maxCount_attained l h
  have hv0f : v0 ∈ l.filter (fun v => l.count v == maxCount l) :=
    List.mem_filter.mpr ⟨hv0, beq_iff_eq.mpr hc0⟩
  rcases hf : l.filter (fun v => l.count v == maxCount l) with _ | ⟨x, xs⟩
  · rw [hf] at hv0f
    exact absurd hv0f (List.not_mem_nil v0)
  · have hm : pandas_mode l = some (listMinD xs x) := by
      rw [pandas_mode, hf]
    set m := listMinD xs x with hmdef
    have hmf : m ∈ l.filter (fun v => l.count v == maxCount l) := by
      rw [hf]
      rcases listMinD_mem xs x with h1 | h1
      · rw [hmdef, h1]
        exact List.mem_cons_self x xs
      · exact List.mem_cons_of_mem x h1
    obtain ⟨hml, hmc⟩ := List.mem_filter.mp hmf
    refine ⟨m, hm, hml, beq_iff_eq.mp hmc, ?_⟩
    intro v hv hvc
    have hvf : v ∈ l.filter (fun v => l.count v == maxCount l) :=
      List.mem_filter.mpr ⟨hv, beq_iff_eq.mpr hvc⟩
    rw [hf] at hvf
    rcases List.mem_cons.mp hvf with rfl | hvf
    · exact (listMinD_le xs v).1
    · exact (listMinD_le xs x).2 v hvf

theorem pct_go_length : ∀ (xs : List ℚ) (prev : ℚ),
    (pct_go prev xs).length = xs.length := by
  intro xs
  induction xs with
  | nil => intro prev; rfl
  | cons y ys ih => intro prev; simp [pct_go, ih]

theorem pct_change100_length (l : List ℚ) :
    (pct_change100 l).length = l.length := by
  cases l with
  | nil => rfl
  | cons x xs => simp [pct_change100, pandas_pct_change, pct_go_length]

theorem pct_go_get? : ∀ (xs : List ℚ) (prev : ℚ) (i : ℕ) (p c : ℚ),
    (prev :: xs).get? i = some p → xs.get? i = some c →
    (pct_go prev xs).get? i = some (some ((c - p) / p)) := by
  intro xs
  induction xs with
  | nil => intro prev i p c _ hc; simp at hc
  | cons y ys ih =>
    intro prev i p c hp hc
    cases i with
    | zero =>
      simp only [List.get?] at hp hc
      injection hp with hp
      injection hc with hc
      subst hp; subst hc
      rfl
    | succ i =>
      simp only [List.get?] at hp hc
      exact ih y i p c hp hc

example : speed_to_pace (some 12) = some 5 := by norm_num [speed_to_pace]
example : speed_to_pace (some 0) = none := by norm_num [speed_to_pace]
example : label_intensity_nan none = "Baixa" := rfl
example : closest_dist 10 = 10 := by
  norm_num [closest_dist, table_keys, distance_factors, pyMinAbsFold,
    abs_eq_max_neg, max_def]
example : adjusted_reference_pace (9/2) 10 = 4.635 := by
  norm_num [adjusted_reference_pace, closest_dist, table_keys, factor_of,
    distance_factors, pyMinAbsFold, abs_eq_max_neg, max_def]
example : compute_easy_percentage [] = 0 := rfl
example : analyze_intensity_distribution [] = none := rfl

/-!
## Claim theorems
-/

/-- **C1** (counterexample): the claim says an activity whose average
speed is zero, missing, or negative is excluded from the Intensity
Classifier's input and receives no intensity index or zone label.  In the
code it is not excluded: a `Run` activity with `average_speed = 0` flows
through `speed_to_pace` (giving `None`) into `add_intensity_index`, which
keeps the row, gives it a NaN intensity index, and labels it `"Baixa"`
(the NaN fall-through of `label_intensity`). -/
theorem c1_counterexample :
    intensity_pipeline [⟨0, "Run", "Run", 10, 60, some 0⟩] 5 10
      = [⟨⟨0, "Run", "Run", 10, 60, some 0⟩, none, none, "Baixa"⟩] := rfl

/-- **C1** (amended): an activity with zero or missing average speed is
*kept* by the Intensity Classifier: it appears in the classifier output
with a null (`NaN`) intensity index and the zone label `"Baixa"`; and it
still counts in the Volume and Frequency analyzers (the weekly distance
totals sum to the full collection's distance and the weekly session
counts sum to the full collection's size, no activity dropped). -/
theorem c1_undefined_pace_labelled_and_counted :
    ∀ (acts : List Activity) (rp rd : ℚ) (a : Activity),
      a ∈ acts → a.sport = "Run" →
      (a.average_speed = none ∨ a.average_speed = some 0) →
      (∃ r ∈ intensity_pipeline acts rp rd,
        r.act = a ∧ r.intensity_index = none ∧ r.zone = "Baixa") ∧
      ((weekly_distance acts).map (fun w => w.distance)).sum
        = (acts.map (fun x => x.distance)).sum ∧
      ((weekly_sessions acts).map (fun p => p.2)).sum = acts.length := by
  intro acts rp rd a ha hsport hspeed
  refine ⟨?_, weekly_distance_conservation acts, weekly_sessions_conservation acts⟩
  have hpace : speed_to_pace a.average_speed = none := by
    rcases hspeed with h | h <;> rw [h] <;> simp [speed_to_pace]
  refine ⟨⟨a, none, none, "Baixa"⟩, ?_, rfl, rfl, rfl⟩
  unfold intensity_pipeline add_intensity_index
  simp only [List.mem_map]
  refine ⟨(a, none), ?_, rfl⟩
  apply List.mem_filter.mpr
  constructor
  · rw [← hpace]
    exact List.mem_map_of_mem _ ha
  · simp [hsport]

/-- **C1** (witness): the amended theorem applied to a concrete
one-activity collection with `average_speed = 0`. -/
theorem c1_witness :
    (∃ r ∈ intensity_pipeline [⟨0, "Run", "Run", 10, 60, some 0⟩] 5 10,
      r.act = ⟨0, "Run", "Run", 10, 60, some 0⟩ ∧
      r.intensity_index = none ∧ r.zone = "Baixa") ∧
    ((weekly_distance [⟨0, "Run", "Run", 10, 60, some 0⟩]).map
      (fun w => w.distance)).sum
      = (([⟨0, "Run", "Run", 10, 60, some 0⟩] : List Activity).map
          (fun x => x.distance)).sum ∧
    ((weekly_sessions [⟨0, "Run", "Run", 10, 60, some 0⟩]).map
      (fun p => p.2)).sum
      = ([⟨0, "Run", "Run", 10, 60, some 0⟩] : List Activity).length :=
  c1_undefined_pace_labelled_and_counted
    [⟨0, "Run", "Run", 10, 60, some 0⟩] 5 10 ⟨0, "Run", "Run", 10, 60, some 0⟩
    (List.mem_singleton_self _) rfl (Or.inr rfl)

/-- **C2** (counterexample): for the weekly distances `[100, 200]` there
is exactly one transition and it is "too large" (`+100% > 15%`), so the
claimed `100 × tooLarge / transitions` would be `100`; the code divides
by `len(pct_changes)` — the number of weeks, `2` — and reports `50`. -/
theorem c2_counterexample :
    (analyze_volume_progression [100, 200]).pct_too_large = some 50 ∧
    (100 : ℚ) * 1 / 1 ≠ 50 := by
  constructor
  · show (if (pct_change100 [100, 200]).length = 0 then none
      else some (((pct_change100 [100, 200]).countP isTooLargeChange : ℚ)
        / ((pct_change100 [100, 200]).length : ℚ) * 100)) = some 50
    norm_num [pct_change100, pandas_pct_change, pct_go, isTooLargeChange,
      List.countP_cons, List.countP_nil, abs_eq_max_neg, max_def]
  · norm_num

/-- **C2** (amended): a transition is classified "ideal" exactly when
`6 ≤ |pct_change| ≤ 15` and "too large" exactly when `|pct_change| > 15`
(the NaN first entry is neither), but `pct_too_large` equals
`100 ×` (number of "too large" transitions) `/` (number of **weeks**),
not divided by the number of transitions. -/
theorem c2_classification_and_week_denominator :
    ∀ ds : List ℚ,
      (∀ v : ℚ, (isIdealChange (some v) = true ↔ (6 ≤ |v| ∧ |v| ≤ 15)) ∧
        (isTooLargeChange (some v) = true ↔ 15 < |v|)) ∧
      isIdealChange none = false ∧ isTooLargeChange none = false ∧
      (ds ≠ [] →
        (analyze_volume_progression ds).pct_too_large
          = some (((pct_change100 ds).countP isTooLargeChange : ℚ)
              / (ds.length : ℚ) * 100)) := by
  intro ds
  refine ⟨?_, rfl, rfl, ?_⟩
  · intro v
    constructor
    · simp [isIdealChange]
    · simp [isTooLargeChange]
  · intro hne
    have hlen : (pct_change100 ds).length = ds.length := pct_change100_length ds
    have hnz : ¬((pct_change100 ds).length = 0) := by
      rw [hlen]
      exact fun h => hne (List.length_eq_zero.mp h)
    show (if (pct_change100 ds).length = 0 then none
      else some (((pct_change100 ds).countP isTooLargeChange : ℚ)
        / ((pct_change100 ds).length : ℚ) * 100)) = _
    rw [if_neg hnz, hlen]

/-- **C2** (witness): the amended theorem applied to the weekly distances
`[100, 200]`. -/
theorem c2_witness :
    (analyze_volume_progression [100, 200]).pct_too_large
      = some (((pct_change100 [100, 200]).countP isTooLargeChange : ℚ)
          / (([100, 200] : List ℚ).length : ℚ) * 100) :=
  (c2_classification_and_week_denominator [100, 200]).2.2.2 (by simp)

/-- **C3** (counterexample): the claim says every downstream aggregator
returns empty/null results on an empty filter result and does not raise;
but `analyze_frequency_consistency` evaluates
`weekly_sessions['Sessions'].mode()[0]`, and indexing the empty mode
series raises `KeyError` — modelled by the `none` result. -/
theorem c3_counterexample : analyze_frequency_consistency [] = none := rfl

/-- **C3** (amended): on an empty filter result the weekly aggregation is
empty and `analyze_volume_progression` returns NaN-valued percentage
statistics (and `recovery_freq = 0`, `has_recovery = false`) without
raising, but `analyze_frequency_consistency` raises (`mode()[0]` of an
empty series) and `analyze_intensity_distribution` raises (`0 / 0`); with
exactly one data point `pct_change` is a single null and the frequency
analyzer returns a NaN (null) coefficient of variation with the single
value as mode. -/
theorem c3_empty_and_degenerate_inputs :
    weekly_distance [] = [] ∧
    weekly_sessions [] = [] ∧
    analyze_volume_progression [] =
      { pct_ideal_changes := none, pct_too_large := none,
        recovery_freq := 0, has_recovery := false } ∧
    analyze_frequency_consistency [] = none ∧
    analyze_intensity_distribution [] = none ∧
    (∀ x : ℚ, pct_change100 [x] = [none]) ∧
    (∀ n : ℕ, analyze_frequency_consistency [n]
      = some { cv := none, mode_sessions := n, pct_consistent := 100 }) := by
  refine ⟨rfl, rfl, ?_, rfl, rfl, fun x => rfl, ?_⟩
  · show VolumeAnalysis.mk _ _ _ _ = _
    norm_num [analyze_volume_progression, pct_change100, pandas_pct_change]
  · intro n
    have hmode : pandas_mode [n] = some n := by
      have h1 : maxCount [n] = 1 := by
        simp [maxCount]
      simp [pandas_mode, h1, listMinD]
    simp only [analyze_frequency_consistency, hmode]
    have hcv : cv_sq [n] = none := by
      simp [cv_sq]
    have hcons : (([n].countP (fun v => v == n)) : ℚ) / (([n] : List ℕ).length : ℚ) * 100
        = 100 := by
      simp
    rw [hcv, hcons]

/-- **C4** (counterexample): `analyze_intensity_distribution` also
computes the Low-intensity percentage but has no zero guard — on an empty
record set it raises `ZeroDivisionError` (modelled `none`) instead of
returning `0.0`; and `compute_easy_percentage` rounds to one decimal, so
on one Low record out of three it returns `33.3`, not the exact
`100 × 1 / 3`. -/
theorem c4_counterexample :
    analyze_intensity_distribution [] = none ∧
    compute_easy_percentage sample_intensity3 = 333/10 ∧
    (333 : ℚ)/10 ≠ 100 * 1 / 3 := by
  refine ⟨rfl, ?_, by norm_num⟩
  have h1 : (sample_intensity3.filter (fun r => r.zone == "Baixa")).length = 1 := rfl
  have h2 : sample_intensity3.length = 3 := rfl
  simp only [compute_easy_percentage, h1, h2]
  norm_num [round1, round_half_even]

/-- **C4** (amended): `compute_easy_percentage` returns
`round(100 × count(zone = Baixa) / total, 1)` for a nonempty record set
and `0.0` for an empty one (never a division error), while
`analyze_intensity_distribution` computes the exact
`count(zone = Baixa) / total × 100` for a nonempty set but raises
`ZeroDivisionError` (modelled `none`) when the set is empty. -/
theorem c4_easy_percentage_guard :
    ∀ df : List IntensityRecord,
      compute_easy_percentage [] = 0 ∧
      analyze_intensity_distribution [] = none ∧
      (df ≠ [] →
        compute_easy_percentage df
          = round1 (100 * ((df.filter (fun r => r.zone == "Baixa")).length : ℚ)
              / (df.length : ℚ)) ∧
        ∃ r, analyze_intensity_distribution df = some r ∧
          r.easy_percentage
            = (((df.filter (fun r => r.zone == "Baixa")).length : ℚ)
                / (df.length : ℚ)) * 100) := by
  intro df
  refine ⟨rfl, rfl, ?_⟩
  intro h
  have hlen : ¬(df.length = 0) := fun h0 => h (List.length_eq_zero.mp h0)
  constructor
  · unfold compute_easy_percentage
    rw [if_neg hlen]
  · simp only [analyze_intensity_distribution]
    rw [if_neg hlen]
    exact ⟨_, rfl, rfl⟩

/-- **C4** (witness): the amended theorem applied to a one-record set,
with the nonemptiness hypothesis discharged. -/
theorem c4_witness :
    compute_easy_percentage sample_intensity1
      = round1 (100 * ((sample_intensity1.filter
          (fun r => r.zone == "Baixa")).length : ℚ)
          / (sample_intensity1.length : ℚ)) ∧
    ∃ r, analyze_intensity_distribution sample_intensity1 = some r ∧
      r.easy_percentage
        = (((sample_intensity1.filter (fun r => r.zone == "Baixa")).length : ℚ)
            / (sample_intensity1.length : ℚ)) * 100 :=
  (c4_easy_percentage_guard sample_intensity1).2.2 (by simp [sample_intensity1])

/-- **C5**: zone assignment is decided in order with first match winning —
`"Alta"` (High) exactly on `index ≤ 0.95`, `"Moderada"` (Moderate) exactly
on `0.95 < index ≤ 1.15` (the `1.15` boundary inclusive), `"Baixa"` (Low)
exactly on `index > 1.15`; with threshold pace `5.0` min/km, pace 4:40
(`14/3`) is High, pace 5:45 (`23/4`) is exactly on the boundary and
Moderate, pace 5:46 (`173/30`) is Low. -/
theorem c5_zone_assignment :
    (∀ x : ℚ,
      (label_intensity x = "Alta" ↔ x ≤ 0.95) ∧
      (label_intensity x = "Moderada" ↔ (0.95 < x ∧ x ≤ 1.15)) ∧
      (label_intensity x = "Baixa" ↔ 1.15 < x)) ∧
    label_intensity (14/3 / 5) = "Alta" ∧
    label_intensity (23/4 / 5) = "Moderada" ∧
    label_intensity (173/30 / 5) = "Baixa" := by
  refine ⟨?_, ?_, ?_, ?_⟩
  · intro x
    by_cases h1 : x ≤ (0.95 : ℚ) <;> by_cases h2 : x ≤ (1.15 : ℚ) <;>
      simp [label_intensity, h1, h2] <;> linarith
  · norm_num [label_intensity]
  · norm_num [label_intensity]
  · norm_num [label_intensity]

/-- **C5** (witness): the boundary characterization applied at the
boundary value `1.15`. -/
theorem c5_witness :
    label_intensity 1.15 = "Moderada" :=
  ((c5_zone_assignment.1 1.15).2.1).mpr (by norm_num)

/-- **C6**: for every reference distance the Reference Pace Estimator
selects from the fixed table the key closest by absolute difference, ties
resolving to the smaller key (Python's `min` keeps the first, and the
keys are listed ascending), and the adjusted threshold pace is the
reference pace times that key's factor; `4.5` min/km at `10.0` km gives
`4.5 × 1.03 = 4.635` min/km. -/
theorem c6_reference_pace_estimator :
    (∀ x : ℚ, closest_dist x ∈ table_keys ∧
      ∀ k ∈ table_keys, |closest_dist x - x| < |k - x| ∨
        (|closest_dist x - x| = |k - x| ∧ closest_dist x ≤ k)) ∧
    (∀ rp rd : ℚ, adjusted_reference_pace rp rd
      = rp * factor_of (closest_dist rd)) ∧
    adjusted_reference_pace 4.5 10 = 4.635 := by
  refine ⟨?_, fun rp rd => rfl, ?_⟩
  · intro x
    have htk : table_keys = [5, 10, 15, 21.1, 42.2] := by
      norm_num [table_keys, distance_factors]
    have hcd : closest_dist x = pyMinAbsFold x 5 [10, 15, 21.1, 42.2] := by
      rw [closest_dist, htk]
      rfl
    have hsorted : List.Sorted (· ≤ ·) ((5 : ℚ) :: [10, 15, 21.1, 42.2]) := by
      norm_num [List.sorted_cons]
    obtain ⟨hmem, hprop⟩ := pyMinAbsFold_spec x [10, 15, 21.1, 42.2] 5 hsorted
    rw [hcd, htk]
    exact ⟨hmem, hprop⟩
  · norm_num [adjusted_reference_pace, closest_dist, table_keys, factor_of,
      distance_factors, pyMinAbsFold, abs_eq_max_neg, max_def]

/-- **C6** (witness): the closest-key property applied at reference
distance `10`, against the table key `42.2` (membership hypothesis
discharged concretely). -/
theorem c6_witness :
    closest_dist 10 ∈ table_keys ∧
    (|closest_dist 10 - 10| < |(42.2 : ℚ) - 10| ∨
      (|closest_dist 10 - 10| = |(42.2 : ℚ) - 10| ∧ closest_dist 10 ≤ 42.2)) :=
  ⟨(c6_reference_pace_estimator.1 10).1,
    (c6_reference_pace_estimator.1 10).2 42.2
      (by norm_num [table_keys, distance_factors])⟩

/-- **C7**: the volume analyzer flags exactly the weeks with distance
`pct_change < -20` as recovery weeks (the NaN first entry is never
flagged), reports `has_recovery` iff at least one exists, and
`recovery_freq` is total weeks divided by the recovery-week count, equal
to the total week count when none exist; on `[100, 105, 40, 95]` only the
third week is flagged. -/
theorem c7_recovery_weeks :
    (∀ ds : List ℚ,
      (∀ v : ℚ, isRecoveryWeek (some v) = true ↔ v < -20) ∧
      isRecoveryWeek none = false ∧
      ((analyze_volume_progression ds).has_recovery = true ↔
        0 < (pct_change100 ds).countP isRecoveryWeek) ∧
      ((pct_change100 ds).countP isRecoveryWeek = 0 →
        (analyze_volume_progression ds).recovery_freq = (ds.length : ℚ)) ∧
      (0 < (pct_change100 ds).countP isRecoveryWeek →
        (analyze_volume_progression ds).recovery_freq
          = (ds.length : ℚ) / ((pct_change100 ds).countP isRecoveryWeek : ℚ))) ∧
    (pct_change100 [100, 105, 40, 95]).map isRecoveryWeek
      = [false, false, true, false] := by
  constructor
  · intro ds
    refine ⟨?_, rfl, ?_, ?_, ?_⟩
    · intro v
      simp [isRecoveryWeek]
    · show (decide (0 < (pct_change100 ds).countP isRecoveryWeek) = true ↔ _)
      simp
    · intro h
      show (ds.length : ℚ) / (if 0 < (pct_change100 ds).countP isRecoveryWeek
        then ((pct_change100 ds).countP isRecoveryWeek : ℚ) else 1) = _
      rw [h]
      norm_num
    · intro h
      show (ds.length : ℚ) / (if 0 < (pct_change100 ds).countP isRecoveryWeek
        then ((pct_change100 ds).countP isRecoveryWeek : ℚ) else 1) = _
      rw [if_pos h]
  · norm_num [pct_change100, pandas_pct_change, pct_go, isRecoveryWeek]

/-- **C7** (witness): the recovery characterization applied to the weekly
distances `[100, 105, 40, 95]`, which have one recovery week. -/
theorem c7_witness :
    (analyze_volume_progression [100, 105, 40, 95]).recovery_freq
      = (([100, 105, 40, 95] : List ℚ).length : ℚ)
        / ((pct_change100 [100, 105, 40, 95]).countP isRecoveryWeek : ℚ) :=
  ((c7_recovery_weeks.1 [100, 105, 40, 95]).2.2.2.2
    (by norm_num [pct_change100, pandas_pct_change, pct_go, isRecoveryWeek,
      List.countP_cons, List.countP_nil]))

/-- **C8**: `pct_change() * 100` has one entry per week; the first entry
is null (`NaN`), never zero; every later entry equals
`(current - previous) / previous * 100`; and distances `100` then `110`
give `[null, +10.0]`. -/
theorem c8_pct_change_convention :
    (∀ ds : List ℚ, (pct_change100 ds).length = ds.length) ∧
    (∀ (x : ℚ) (xs : List ℚ), (pct_change100 (x :: xs)).get? 0 = some none) ∧
    (∀ (x : ℚ) (xs : List ℚ) (i : ℕ) (p c : ℚ),
      (x :: xs).get? i = some p → xs.get? i = some c →
      (pct_change100 (x :: xs)).get? (i + 1) = some (some ((c - p) / p * 100))) ∧
    pct_change100 [100, 110] = [none, some 10] := by
  refine ⟨pct_change100_length, fun x xs => rfl, ?_, ?_⟩
  · intro x xs i p c hp hc
    have hgo : (pct_go x xs).get? i = some (some ((c - p) / p)) :=
      pct_go_get? xs x i p c hp hc
    show ((pandas_pct_change (x :: xs)).map (Option.map (fun v => v * 100))).get? (i + 1)
      = some (some ((c - p) / p * 100))
    rw [List.get?_map]
    show ((pct_go x xs).get? i).map (Option.map (fun v => v * 100))
      = some (some ((c - p) / p * 100))
    rw [hgo]
    rfl
  · norm_num [pct_change100, pandas_pct_change, pct_go]

/-- **C8** (witness): the indexed formula applied to the two weeks
`100`, `110` at `i = 0`. -/
theorem c8_witness :
    (pct_change100 [100, 110]).get? 1 = some (some ((110 - 100) / 100 * 100)) :=
  c8_pct_change_convention.2.2.1 100 [110] 0 100 110 rfl rfl

/-- **C9**: for every nonempty list of per-week session counts, the
frequency analyzer's reported mode is a value of the list with maximal
multiplicity, and the smallest among tied values; `[3, 3, 4, 4, 5]`
yields `3`. -/
theorem c9_mode_smallest_tie :
    (∀ l : List ℕ, l ≠ [] → ∃ m, pandas_mode l = some m ∧ m ∈ l ∧
      (∀ v : ℕ, l.count v ≤ l.count m) ∧
      (∀ v ∈ l, l.count v = l.count m → m ≤ v) ∧
      ∃ r, analyze_frequency_consistency l = some r ∧ r.mode_sessions = m) ∧
    pandas_mode [3, 3, 4, 4, 5] = some 3 := by
  constructor
  · intro l hl
    obtain ⟨m, hm, hmem, hcount, hmin⟩ := pandas_mode_spec l hl
    refine ⟨m, hm, hmem, ?_, ?_, ?_⟩
    · intro v
      rw [hcount]
      exact count_le_maxCount l v
    · intro v hv hvc
      exact hmin v hv (hvc.trans hcount)
    · exact ⟨FreqAnalysis.mk (cv_sq l) m
          (((l.countP (fun v => v == m)) : ℚ) / (l.length : ℚ) * 100),
        by simp only [analyze_frequency_consistency, hm], rfl⟩
  · decide

/-- **C9** (witness): the mode characterization applied to the session
counts `[3, 3, 4, 4, 5]`. -/
theorem c9_witness :
    ∃ m, pandas_mode [3, 3, 4, 4, 5] = some m ∧ m ∈ [3, 3, 4, 4, 5] ∧
      (∀ v : ℕ, ([3, 3, 4, 4, 5] : List ℕ).count v
        ≤ ([3, 3, 4, 4, 5] : List ℕ).count m) ∧
      (∀ v ∈ ([3, 3, 4, 4, 5] : List ℕ),
        ([3, 3, 4, 4, 5] : List ℕ).count v = ([3, 3, 4, 4, 5] : List ℕ).count m
          → m ≤ v) ∧
      ∃ r, analyze_frequency_consistency [3, 3, 4, 4, 5] = some r ∧
        r.mode_sessions = m :=
  c9_mode_smallest_tie.1 [3, 3, 4, 4, 5] (by decide)

/-- **C10**: the Time-Window Filter is non-destructive (it returns a
sublist of its input, the input collection itself being untouched by the
pure function), idempotent, and returns the empty collection when the
range's start date is after its end date. -/
theorem c10_time_filter :
    ∀ (acts : List Activity) (s e : ℤ) (types : List String),
      (time_filter acts s e types).Sublist acts ∧
      time_filter (time_filter acts s e types) s e types
        = time_filter acts s e types ∧
      (e < s → time_filter acts s e types = []) := by
  intro acts s e types
  unfold time_filter
  by_cases ht : types.isEmpty
  all_goals simp only [ht, if_true, if_false, Bool.false_eq_true]
  all_goals refine ⟨List.filter_sublist _, ?_, ?_⟩
  · exact List.filter_eq_self.mpr (fun a ha => (List.mem_filter.mp ha).2)
  · intro hes
    apply List.filter_eq_nil_iff.mpr
    intro a _
    simp only [Bool.and_eq_true, decide_eq_true_eq, not_and]
    intro h1 h2
    omega
  · exact List.filter_eq_self.mpr (fun a ha => (List.mem_filter.mp ha).2)
  · intro hes
    apply List.filter_eq_nil_iff.mpr
    intro a _
    simp only [Bool.and_eq_true, decide_eq_true_eq, not_and]
    rintro ⟨h1, h2⟩
    omega

/-- **C10** (witness): the start-after-end case applied to a concrete
one-activity collection with `s = 5 > 3 = e`. -/
theorem c10_witness :
    time_filter [⟨0, "Run", "Run", 10, 60, some 12⟩] 5 3 [] = [] :=
  (c10_time_filter [⟨0, "Run", "Run", 10, 60, some 12⟩] 5 3 []).2.2 (by norm_num)
